import Mathlib

/-!
Shallow embedding of the agent-browser lightweight CLI client
(src/src/cli-light.ts): the command encoder, the batch tokenizer, the
batch executor, the single-exchange transport state machine, and the
daemon liveness check.  JavaScript runtime behaviour that the code relies
on (undefined coercion in template literals, parseInt, String.prototype
trim and slice, the regex used for tokenization) is embedded explicitly.
-/

namespace AgentBrowser

/-- Wire response shape of the daemon protocol, from the Response
interface in cli-light.ts.  The data payload is never inspected by the
client logic modelled here, so it is kept as an opaque optional string. -/
structure Response where
  id : String
  success : Bool
  data : Option String := none
  error : Option String := none
  deriving Repr, DecidableEq

/-- Request objects built by parseCommand.  The TypeScript code builds a
plain record with an id, an action and action-specific fields; fields the
code may leave undefined are Options here.  The maxDepth field is doubly
optional: the outer layer is property presence, the inner layer is the
parseInt result (none standing for NaN). -/
structure Request where
  id : String
  action : String
  url : Option String := none
  selector : Option String := none
  value : Option String := none
  text : Option String := none
  timeout : Option Int := none
  key : Option String := none
  path : Option String := none
  script : Option String := none
  interactive : Option Bool := none
  compact : Option Bool := none
  maxDepth : Option (Option Int) := none
  deriving Repr, DecidableEq

/-- JavaScript string coercion of a possibly-undefined string value, as it
happens inside a template literal: undefined prints as "undefined". -/
def jsStr : Option String → String
  | some s => s
  | none => "undefined"

/-- Value of a list of decimal digit characters. -/
def digitsVal (ds : List Char) : Nat :=
  ds.foldl (fun a c => a * 10 + (c.toNat - 48)) 0

/-- Characters matched by the JavaScript whitespace class in the source's
regexes and by String.prototype.trim, restricted to the ASCII range the
CLI actually sees. -/
def jsSpaceChar (c : Char) : Bool :=
  c == ' ' || c == '\t' || c == '\n' || c == '\r' || c == '\x0b' || c == '\x0c'

/-- JavaScript parseInt with radix 10: skip leading whitespace, read an
optional sign, then the maximal run of leading decimal digits; the result
is NaN (here none) when that run is empty, and trailing garbage is
ignored. -/
def parseIntJS (s : String) : Option Int :=
  let cs := s.toList.dropWhile (fun c => jsSpaceChar c)
  let neg : Bool := cs.head? = some '-'
  let body := if cs.head? = some '-' ∨ cs.head? = some '+' then cs.tail else cs
  let ds := body.takeWhile Char.isDigit
  if ds.isEmpty then none
  else if neg then some (-(digitsVal ds : Int))
  else some (digitsVal ds)

/-- Test of the anchored digit regex used by the wait verb: the string is
nonempty and consists solely of decimal digits. -/
def matchesDigits (s : String) : Bool :=
  !s.isEmpty && s.toList.all Char.isDigit

/-- JavaScript String.prototype.slice restricted to nonnegative bounds, as
used by the id generator slice(2, 10). -/
def jsSlice (s : String) (start stop : Nat) : String :=
  String.mk ((s.toList.drop start).take (stop - start))

/-- Test whether a character list starts with the four characters of the
literal text http, as the startsWith call of the navigate case does. -/
def startsWithHttp : List Char → Bool
  | 'h' :: 't' :: 't' :: 'p' :: _ => true
  | _ => false

/-- JavaScript String.prototype.trim: strip leading and trailing
whitespace characters. -/
def jsTrim (s : String) : String :=
  String.mk (((s.toList.dropWhile (fun c => jsSpaceChar c)).reverse.dropWhile
    (fun c => jsSpaceChar c)).reverse)

/-- Option-scanning loop of the snapshot verb in parseCommand: walks the
remaining arguments, setting interactive and compact flags and consuming
the following argument for depth and selector (an absent following
argument is JavaScript undefined: parseInt of it is NaN, and assigning it
to selector leaves no usable value). -/
def snapshotLoop : List String → Request → Request
  | [], opts => opts
  | arg :: restArgs, opts =>
    if arg = "-i" ∨ arg = "--interactive" then
      snapshotLoop restArgs { opts with interactive := some true }
    else if arg = "-c" ∨ arg = "--compact" then
      snapshotLoop restArgs { opts with compact := some true }
    else if arg = "--depth" ∨ arg = "-d" then
      match restArgs with
      | [] => { opts with maxDepth := some (parseIntJS (jsStr none)) }
      | b :: bs => snapshotLoop bs { opts with maxDepth := some (parseIntJS b) }
    else if arg = "--selector" ∨ arg = "-s" then
      match restArgs with
      | [] => { opts with selector := none }
      | b :: bs => snapshotLoop bs { opts with selector := some b }
    else
      snapshotLoop restArgs opts

/-- Command encoder parseCommand from cli-light.ts.  The random id drawn
at the top of the function (Math.random().toString(36).slice(2, 10)) is
modelled as the parameter id, standing for the value of that draw; the
switch over the verb becomes a chain of equality tests in source order.
An empty token list and an unknown verb return none (null). -/
def parseCommand (id : String) (parts : List String) : Option Request :=
  match parts with
  | [] => none
  | command :: rest =>
    if command = "open" ∨ command = "goto" ∨ command = "navigate" then
      some { id := id, action := "navigate",
             url := some (match rest[0]? with
               | some u => if startsWithHttp u.toList then u else "https://" ++ u
               | none => "https://" ++ jsStr none) }
    else if command = "click" then
      some { id := id, action := "click", selector := rest[0]? }
    else if command = "fill" then
      some { id := id, action := "fill", selector := rest[0]?,
             value := some (String.intercalate " " (rest.drop 1)) }
    else if command = "type" then
      some { id := id, action := "type", selector := rest[0]?,
             text := some (String.intercalate " " (rest.drop 1)) }
    else if command = "hover" then
      some { id := id, action := "hover", selector := rest[0]? }
    else if command = "snapshot" then
      some (snapshotLoop rest { id := id, action := "snapshot" })
    else if command = "screenshot" then
      some { id := id, action := "screenshot", path := rest[0]? }
    else if command = "close" ∨ command = "quit" then
      some { id := id, action := "close" }
    else if command = "get" then
      if rest[0]? = some "text" then
        some { id := id, action := "gettext", selector := rest[1]? }
      else if rest[0]? = some "url" then
        some { id := id, action := "url" }
      else if rest[0]? = some "title" then
        some { id := id, action := "title" }
      else none
    else if command = "press" then
      some { id := id, action := "press", key := rest[0]? }
    else if command = "wait" then
      if matchesDigits (jsStr rest[0]?) then
        some { id := id, action := "wait", timeout := parseIntJS (jsStr rest[0]?) }
      else
        some { id := id, action := "wait", selector := rest[0]? }
    else if command = "back" then
      some { id := id, action := "back" }
    else if command = "forward" then
      some { id := id, action := "forward" }
    else if command = "reload" then
      some { id := id, action := "reload" }
    else if command = "eval" then
      some { id := id, action := "evaluate", script := some (String.intercalate " " rest) }
    else none

/-- Verbs recognized by the switch in parseCommand. -/
def supportedVerbs : List String :=
  ["open", "goto", "navigate", "click", "fill", "type", "hover", "snapshot",
   "screenshot", "close", "quit", "get", "press", "wait", "back", "forward",
   "reload", "eval"]

/-- Characters that may appear in an unquoted chunk of the batch
tokenization regex: anything but whitespace and a double quote. -/
def isWordChar (c : Char) : Bool :=
  !jsSpaceChar c && c != '"'

/-- Split a character list at its first double quote, returning the part
before it and the part after it, or none when no quote occurs.  Helper
for the quoted alternative of the tokenization regex. -/
def splitAtQuote : List Char → Option (List Char × List Char)
  | [] => none
  | c :: cs =>
    if c = '"' then some ([], cs)
    else
      match splitAtQuote cs with
      | some (pre, post) => some (c :: pre, post)
      | none => none

/-- One chunk of the batch tokenization regex at the current position:
either a maximal run of word characters, or a complete double-quoted
substring (quotes included).  Returns the chunk and the remaining
characters, or none when neither alternative matches here. -/
def chunkAt : List Char → Option (List Char × List Char)
  | [] => none
  | c :: cs =>
    if isWordChar c then
      some (c :: cs.takeWhile isWordChar, cs.dropWhile isWordChar)
    else if c = '"' then
      match splitAtQuote cs with
      | some (inner, post) => some ('"' :: (inner ++ ['"']), post)
      | none => none
    else none

/-- One full token at the current position: a maximal nonempty sequence of
adjacent chunks, as matched by the outer repetition of the tokenization
regex.  Structural in a fuel argument that the callers instantiate large
enough (each chunk consumes at least one character). -/
def tokenAtF : Nat → List Char → Option (List Char × List Char)
  | 0, _ => none
  | fuel + 1, l =>
    match chunkAt l with
    | none => none
    | some (c, r) =>
      match tokenAtF fuel r with
      | none => some (c, r)
      | some (t, r2) => some (c ++ t, r2)

/-- Global scan of the tokenization regex: at each position emit the token
matched there and continue after it, or skip one character when no token
starts here.  Fuel-structural; each step consumes at least one character
and one unit of fuel. -/
def scanTokensF : Nat → List Char → List (List Char)
  | 0, _ => []
  | _ + 1, [] => []
  | fuel + 1, c :: cs =>
    match tokenAtF (fuel + 1) (c :: cs) with
    | some (t, r) => t :: scanTokensF fuel r
    | none => scanTokensF fuel cs

/-- Tokenization of one batch command string, embedding the JavaScript
global match against the regex that takes runs of unquoted characters and
double-quoted substrings as single tokens (a string with no match gives
the empty list). -/
def jsTokenize (s : String) : List String :=
  (scanTokensF s.toList.length s.toList).map (fun t => String.mk t)

/-- Removal of one leading double quote when present. -/
def stripLeadQuote : List Char → List Char
  | '"' :: rest => rest
  | l => l

/-- Per-token cleanup in parseBatchCommands: the replacement of the
anchored-quote regex removes one leading and one trailing double quote
when present. -/
def stripQuotes (s : String) : String :=
  let l1 := stripLeadQuote s.toList
  String.mk (if l1.getLast? = some '"' then l1.dropLast else l1)

/-- Tokenize one batch argument and strip surrounding quotes from each
token, as parseBatchCommands does before calling parseCommand. -/
def cleanTokens (s : String) : List String :=
  (jsTokenize s).map stripQuotes

/-- Loop body of parseBatchCommands: each argument is tokenized, cleaned
and encoded; encoded commands are collected in order and arguments that
encode to none are skipped.  The ids function supplies the random id
drawn by the parseCommand call for the argument at each position. -/
def parseBatchGo (ids : Nat → String) : Nat → List String → List Request
  | _, [] => []
  | i, a :: as =>
    match parseCommand (ids i) (cleanTokens a) with
    | some cmd => cmd :: parseBatchGo ids (i + 1) as
    | none => parseBatchGo ids (i + 1) as

/-- Batch tokenizer and encoder parseBatchCommands from cli-light.ts. -/
def parseBatchCommands (ids : Nat → String) (args : List String) : List Request :=
  parseBatchGo ids 0 args

/-- Failure Response synthesized by runBatch when an exchange itself
rejects: it carries the request's id and the error text. -/
def errorResponseFor (cmd : Request) (message : String) : Response :=
  { id := cmd.id, success := false, error := some message }

/-- Loop of runBatch from cli-light.ts, parameterized by the exchange
oracle (sendCommand resolving with a Response or rejecting with an error
message).  The first component is the trace of requests actually passed
to the exchange, the second the recorded responses in order, the third
the hasError flag.  A response with success false is recorded and stops
the loop; a rejected exchange records the synthesized failure response
and stops the loop. -/
def runBatchGo (exchange : Request → Except String Response) :
    List Request → List Request × List Response × Bool
  | [] => ([], [], false)
  | cmd :: restCmds =>
    match exchange cmd with
    | Except.ok response =>
      if response.success then
        let next := runBatchGo exchange restCmds
        (cmd :: next.1, response :: next.2.1, next.2.2)
      else
        ([cmd], [response], true)
    | Except.error err =>
      ([cmd], [errorResponseFor cmd err], true)

/-- Aggregate result printed by runBatch in json mode: success is the
negated hasError flag, completed the number of recorded results, total
the number of commands originally queued. -/
structure BatchResult where
  success : Bool
  results : List Response
  completed : Nat
  total : Nat
  deriving Repr, DecidableEq

/-- Batch executor runBatch from cli-light.ts, reduced to its pure
aggregate. -/
def runBatch (exchange : Request → Except String Response)
    (commands : List Request) : BatchResult :=
  let run := runBatchGo exchange commands
  { success := !run.2.2, results := run.2.1,
    completed := run.2.1.length, total := commands.length }

/-- Trace of the requests runBatch actually hands to sendCommand, in
order. -/
def sentRequests (exchange : Request → Except String Response)
    (commands : List Request) : List Request :=
  (runBatchGo exchange commands).1

deriving instance DecidableEq for Except

/-- Events a sendCommand exchange can observe: a data chunk, a socket
error, the close event, and the firing of the 30 second timer. -/
inductive SocketEvent where
  | data (chunk : String)
  | socketError (message : String)
  | close
  | timeout
  deriving Repr, DecidableEq

/-- Which of the four resolution sites of sendCommand set the resolved
flag. -/
inductive ResolvePath where
  | dataPath
  | errorPath
  | closePath
  | timeoutPath
  deriving Repr, DecidableEq

/-- State of one sendCommand exchange: the accumulated buffer, the
resolved flag, the settled outcome of the promise (ok Response for
resolve, error text for reject), the number of times cleanup ran
(socket.removeAllListeners plus socket.destroy), whether the socket
listeners are still attached, and through which site the promise was
settled.  The cleanups counter and the resolvedVia tag instrument the
source for the exactly-once properties; everything else mirrors the
closure variables of sendCommand. -/
structure SendState where
  buffer : String
  resolved : Bool
  outcome : Option (Except String Response)
  cleanups : Nat
  listenersActive : Bool
  resolvedVia : Option ResolvePath
  deriving Repr, DecidableEq

/-- State before any event: empty buffer, unresolved, listeners attached. -/
def initialSendState : SendState :=
  { buffer := "", resolved := false, outcome := none, cleanups := 0,
    listenersActive := true, resolvedVia := none }

/-- Index of the first newline in the buffer, as buffer.indexOf with the
newline character. -/
def firstNewlinePos (s : String) : Option Nat :=
  s.toList.findIdx? (fun c => c = '\n')

/-- Prefix of the buffer before an index, as buffer.substring starting at
zero. -/
def stringTake (s : String) (n : Nat) : String :=
  String.mk (s.toList.take n)

/-- One event handled by the sendCommand closure.  The parse parameter
abstracts JSON.parse applied to a candidate Response line: some for a
successful parse, none for a thrown parse error.  Each branch follows the
corresponding handler in cli-light.ts: the data handler appends to the
buffer first and only resolves on a first newline when not yet resolved,
calling cleanup before settling; the error handler cleans up and rejects
when not yet resolved; the close handler, when not resolved and the
trimmed buffer is nonempty, resolves with the parsed buffer or rejects
with a connection-closed error, in both cases without calling cleanup;
the timer cleans up and rejects with a timeout error when not yet
resolved.  Socket handlers only run while the listeners are attached; the
timer callback is not a socket listener and always runs. -/
def sendStep (parse : String → Option Response) (st : SendState)
    (e : SocketEvent) : SendState :=
  match e with
  | SocketEvent.data chunk =>
    if st.listenersActive then
      let buffer := st.buffer ++ chunk
      match firstNewlinePos buffer with
      | some idx =>
        if st.resolved then { st with buffer := buffer }
        else
          match parse (stringTake buffer idx) with
          | some response =>
            { st with
              buffer := buffer
              resolved := true
              outcome := some (Except.ok response)
              cleanups := st.cleanups + 1
              listenersActive := false
              resolvedVia := some ResolvePath.dataPath }
          | none =>
            { st with
              buffer := buffer
              resolved := true
              outcome := some (Except.error "Invalid JSON response")
              cleanups := st.cleanups + 1
              listenersActive := false
              resolvedVia := some ResolvePath.dataPath }
      | none => { st with buffer := buffer }
    else st
  | SocketEvent.socketError message =>
    if st.listenersActive then
      if st.resolved then st
      else
        { st with
          resolved := true
          outcome := some (Except.error message)
          cleanups := st.cleanups + 1
          listenersActive := false
          resolvedVia := some ResolvePath.errorPath }
    else st
  | SocketEvent.close =>
    if st.listenersActive then
      if st.resolved = false ∧ jsTrim st.buffer ≠ "" then
        match parse (jsTrim st.buffer) with
        | some response =>
          { st with
            resolved := true
            outcome := some (Except.ok response)
            resolvedVia := some ResolvePath.closePath }
        | none =>
          { st with
            resolved := true
            outcome := some (Except.error "Connection closed")
            resolvedVia := some ResolvePath.closePath }
      else st
    else st
  | SocketEvent.timeout =>
    if st.resolved then st
    else
      { st with
        resolved := true
        outcome := some (Except.error "Timeout")
        cleanups := st.cleanups + 1
        listenersActive := false
        resolvedVia := some ResolvePath.timeoutPath }

/-- Run one sendCommand exchange over a finite sequence of events. -/
def processEvents (parse : String → Option Response)
    (events : List SocketEvent) : SendState :=
  events.foldl (sendStep parse) initialSendState

/-- Ambient facts the daemon liveness check consults: whether the pid
marker file exists, its content when it does, which process identifiers
name a live process (probed by the zero signal of process.kill, a throw
being false), and whether the session socket path exists. -/
structure DaemonWorld where
  pidFileExists : Bool
  pidFileContent : String
  processAlive : Int → Bool
  socketExists : Bool

/-- Liveness check isDaemonRunning from cli-light.ts: false when the pid
file is absent; otherwise the trimmed content is fed to parseInt, and a
NaN result makes process.kill throw (caught as false); otherwise the
probe of the recorded pid decides. -/
def isDaemonRunning (w : DaemonWorld) : Bool :=
  if !w.pidFileExists then false
  else
    match parseIntJS (jsTrim w.pidFileContent) with
    | none => false
    | some pid => w.processAlive pid

/-- Guard at the top of ensureDaemon: the function returns immediately,
spawning nothing, exactly when the liveness check passes and the socket
path exists. -/
def ensureDaemonReturnsImmediately (w : DaemonWorld) : Bool :=
  isDaemonRunning w && w.socketExists

/-- Occurrence of the three-character scheme separator anywhere in a
character list. -/
def hasSchemeSep : List Char → Bool
  | [] => false
  | ':' :: '/' :: '/' :: _ => true
  | _ :: cs => hasSchemeSep cs

/-- Spec-side reading of a scheme for the navigate claim: the spec calls
an argument a bare host when it carries no scheme, a scheme being marked
by the scheme separator.  Used only to compare the specification's
wording with the encoder's actual test. -/
def specHasScheme (s : String) : Bool :=
  hasSchemeSep s.toList

/-- Id produced from one draw of the random source: the source computes
Math.random().toString(36).slice(2, 10), and the argument here is the
base-36 string of the draw.  Per the Number-to-string specification the
draw 0 prints as "0", and a draw strictly between 0 and 1 prints as "0."
followed by at least one base-36 digit. -/
def randomIdOfBase36 (s : String) : String :=
  jsSlice s 2 10

/-- Invariant of reachable exchange states: the resolved flag tracks a
settled outcome and a recorded resolution site; cleanup ran exactly when
the listeners were detached, which the close site never does and the
three other sites always do. -/
def GoodSendState (st : SendState) : Prop :=
  st.resolved = st.outcome.isSome
  ∧ st.resolvedVia.isSome = st.resolved
  ∧ (st.listenersActive = false → st.resolved = true)
  ∧ st.cleanups = (if st.listenersActive then 0 else 1)
  ∧ (st.resolvedVia = some ResolvePath.closePath → st.listenersActive = true)
  ∧ ((st.resolvedVia = some ResolvePath.dataPath
      ∨ st.resolvedVia = some ResolvePath.errorPath
      ∨ st.resolvedVia = some ResolvePath.timeoutPath) →
      st.listenersActive = false)

/-- Sample requests for concrete batch runs. -/
def reqA : Request := { id := "a", action := "navigate" }

/-- Second sample request. -/
def reqB : Request := { id := "b", action := "click" }

/-- Third sample request. -/
def reqC : Request := { id := "c", action := "close" }

/-- Exchange oracle whose exchange for reqB returns a Response with
success false and succeeds for every other request. -/
def demoExchange : Request → Except String Response := fun r =>
  if r.id = "b" then Except.ok { id := "b", success := false, error := some "boom" }
  else Except.ok { id := r.id, success := true }

/-- Exchange oracle that rejects the exchange for reqB with a connection
error and succeeds for every other request. -/
def demoErrExchange : Request → Except String Response := fun r =>
  if r.id = "b" then Except.error "connect ECONNREFUSED"
  else Except.ok { id := r.id, success := true }

/-- Sample response used by the concrete transport runs. -/
def demoResponse : Response := { id := "a", success := true }

/-- Concrete stand-in for JSON.parse that accepts exactly the buffered
text of the concrete transport runs. -/
def demoParse : String → Option Response :=
  fun s => if s = "x" then some demoResponse else none

/-- Stand-in for JSON.parse on runs whose buffers never hold valid JSON. -/
def parseNothing : String → Option Response := fun _ => none

/-- World whose pid file names a process that no longer exists while the
socket path is still present. -/
def demoWorldDead : DaemonWorld :=
  { pidFileExists := true, pidFileContent := "7",
    processAlive := fun _ => false, socketExists := true }

/-- World whose pid file names a live process and whose socket exists. -/
def demoWorldLive : DaemonWorld :=
  { pidFileExists := true, pidFileContent := "123",
    processAlive := fun p => p == 123, socketExists := true }

/-- A batch whose exchanges all succeed with successful responses records
every command in order, reports no error, and records one response per
command. -/
lemma runBatchGo_allOk (exchange : Request → Except String Response) :
    ∀ cmds : List Request,
      (∀ c ∈ cmds, ∃ r, exchange c = Except.ok r ∧ r.success = true) →
      (runBatchGo exchange cmds).1 = cmds
      ∧ (runBatchGo exchange cmds).2.2 = false
      ∧ (runBatchGo exchange cmds).2.1.length = cmds.length := by
  intro cmds
  induction cmds with
  | nil => intro _; simp [runBatchGo]
  | cons cmd rest ih =>
    intro h
    obtain ⟨r, hr, hs⟩ := h cmd (by simp)
    have hrest := ih (fun c hc => h c (by simp [hc]))
    simp [runBatchGo, hr, hs, hrest.1, hrest.2.1, hrest.2.2]

/-- Running a batch whose leading commands all succeed behaves as the run
of the remaining commands appended after the successful prefix. -/
lemma runBatchGo_append_ok (exchange : Request → Except String Response) :
    ∀ (pre rest : List Request),
      (∀ c ∈ pre, ∃ r, exchange c = Except.ok r ∧ r.success = true) →
      (runBatchGo exchange (pre ++ rest)).1 = pre ++ (runBatchGo exchange rest).1
      ∧ (runBatchGo exchange (pre ++ rest)).2.2 = (runBatchGo exchange rest).2.2
      ∧ ∃ rs, (runBatchGo exchange (pre ++ rest)).2.1
            = rs ++ (runBatchGo exchange rest).2.1
          ∧ rs.length = pre.length := by
  intro pre
  induction pre with
  | nil => intro rest _; exact ⟨rfl, rfl, [], rfl, rfl⟩
  | cons c pre ih =>
    intro rest h
    obtain ⟨r, hr, hs⟩ := h c (by simp)
    obtain ⟨h1, h2, rs, h3, h4⟩ := ih rest (fun d hd => h d (by simp [hd]))
    refine ⟨?_, ?_, r :: rs, ?_, ?_⟩ <;> simp [runBatchGo, hr, hs, h1, h2, h3, h4]

/-- C1: runBatch processes a batch strictly in order; when every exchange
resolves with a successful Response the aggregate has completed equal to
total and success true, and when the first failing Response is the one
for request number k (after k - 1 successes) no later request is ever
sent, completed is k, total is the original queue length, and the
aggregate success is false. -/
theorem runBatch_sequencing_and_first_failure
    (exchange : Request → Except String Response)
    (cmds pre post : List Request) (b : Request) (rb : Response) :
    ((∀ c ∈ cmds, ∃ r, exchange c = Except.ok r ∧ r.success = true) →
      sentRequests exchange cmds = cmds
      ∧ (runBatch exchange cmds).completed = (runBatch exchange cmds).total
      ∧ (runBatch exchange cmds).success = true)
    ∧ ((∀ c ∈ pre, ∃ r, exchange c = Except.ok r ∧ r.success = true) →
      exchange b = Except.ok rb → rb.success = false →
      sentRequests exchange (pre ++ b :: post) = pre ++ [b]
      ∧ (runBatch exchange (pre ++ b :: post)).completed = pre.length + 1
      ∧ (runBatch exchange (pre ++ b :: post)).total = pre.length + (post.length + 1)
      ∧ (runBatch exchange (pre ++ b :: post)).success = false) := by
  constructor
  · intro h
    have hall := runBatchGo_allOk exchange cmds h
    simp [sentRequests, runBatch, hall.1, hall.2.1, hall.2.2]
  · intro hpre hb hs
    have hgo : runBatchGo exchange (b :: post) = ([b], [rb], true) := by
      simp [runBatchGo, hb, hs]
    obtain ⟨h1, h2, rs, h3, h4⟩ := runBatchGo_append_ok exchange pre (b :: post) hpre
    refine ⟨?_, ?_, ?_, ?_⟩ <;>
      simp [sentRequests, runBatch, h1, h2, h3, h4, hgo]

/-- Witness for C1: over the concrete batch A, B, C where the exchange of
B returns success false, A and B are sent but C is not, completed is 2 of
3, and the aggregate success is false. -/
theorem runBatch_sequencing_witness :
    sentRequests demoExchange [reqA, reqB, reqC] = [reqA, reqB]
    ∧ (runBatch demoExchange [reqA, reqB, reqC]).completed = 2
    ∧ (runBatch demoExchange [reqA, reqB, reqC]).total = 3
    ∧ (runBatch demoExchange [reqA, reqB, reqC]).success = false :=
  (runBatch_sequencing_and_first_failure demoExchange [] [reqA] [reqC] reqB
      { id := "b", success := false, error := some "boom" }).2
    (fun c hc => by
      have hca : c = reqA := by simpa using hc
      exact ⟨{ id := "a", success := true }, by rw [hca]; rfl, rfl⟩)
    rfl rfl

/-- C4: when the exchange for a request itself rejects, runBatch records a
synthesized failure Response carrying that request's id and the error
text, marks the batch failed, and sends no further requests. -/
theorem runBatch_rejected_exchange
    (exchange : Request → Except String Response)
    (pre post : List Request) (b : Request) (msg : String) :
    (∀ c ∈ pre, ∃ r, exchange c = Except.ok r ∧ r.success = true) →
    exchange b = Except.error msg →
    sentRequests exchange (pre ++ b :: post) = pre ++ [b]
    ∧ (runBatch exchange (pre ++ b :: post)).success = false
    ∧ ∃ rs, (runBatch exchange (pre ++ b :: post)).results
          = rs ++ [{ id := b.id, success := false, error := some msg }]
        ∧ rs.length = pre.length := by
  intro hpre hb
  have hgo : runBatchGo exchange (b :: post)
      = ([b], [{ id := b.id, success := false, error := some msg }], true) := by
    simp [runBatchGo, hb, errorResponseFor]
  obtain ⟨h1, h2, rs, h3, h4⟩ := runBatchGo_append_ok exchange pre (b :: post) hpre
  refine ⟨?_, ?_, rs, ?_, h4⟩ <;>
    simp [sentRequests, runBatch, h1, h2, h3, hgo]

/-- Witness for C4: over the concrete batch A, B, C where the exchange of
B rejects with a connection error, the synthesized failure Response
carries B's id and the error text, the batch fails, and C is not sent. -/
theorem runBatch_rejected_exchange_witness :
    sentRequests demoErrExchange [reqA, reqB, reqC] = [reqA, reqB]
    ∧ (runBatch demoErrExchange [reqA, reqB, reqC]).success = false
    ∧ ∃ rs, (runBatch demoErrExchange [reqA, reqB, reqC]).results
          = rs ++ [{ id := "b", success := false, error := some "connect ECONNREFUSED" }]
        ∧ rs.length = 1 :=
  runBatch_rejected_exchange demoErrExchange [reqA] [reqC] reqB "connect ECONNREFUSED"
    (fun c hc => by
      have hca : c = reqA := by simpa using hc
      exact ⟨{ id := "a", success := true }, by rw [hca]; rfl, rfl⟩)
    rfl

/-- The initial exchange state satisfies the reachable-state invariant. -/
lemma initialSendState_good : GoodSendState initialSendState := by
  unfold GoodSendState initialSendState
  simp

/-- One event preserves the reachable-state invariant of an exchange. -/
lemma sendStep_good (parse : String → Option Response) (st : SendState)
    (e : SocketEvent) (h : GoodSendState st) :
    GoodSendState (sendStep parse st e) := by
  unfold GoodSendState at h ⊢
  obtain ⟨h1, h2, h3, h4, h5, h6⟩ := h
  cases e <;> simp only [sendStep] <;> (repeat' split) <;> simp_all

/-- Every state reached from the initial state satisfies the invariant. -/
lemma processEvents_good (parse : String → Option Response)
    (events : List SocketEvent) :
    GoodSendState (processEvents parse events) := by
  suffices h : ∀ st, GoodSendState st →
      GoodSendState (events.foldl (sendStep parse) st) from
    h initialSendState initialSendState_good
  induction events with
  | nil => intro st hst; exact hst
  | cons e evs ih =>
    intro st hst
    exact ih (sendStep parse st e) (sendStep_good parse st e hst)

/-- Once an exchange is resolved, no further event changes the settled
outcome, the cleanup count, or the resolution site. -/
lemma sendStep_frozen (parse : String → Option Response) (st : SendState)
    (e : SocketEvent) (h : st.resolved = true) :
    (sendStep parse st e).outcome = st.outcome
    ∧ (sendStep parse st e).cleanups = st.cleanups
    ∧ (sendStep parse st e).resolvedVia = st.resolvedVia
    ∧ (sendStep parse st e).resolved = true := by
  cases e <;> simp only [sendStep] <;> (repeat' split) <;> simp_all

/-- Processing one more event is one step on the state reached so far. -/
lemma processEvents_append_one (parse : String → Option Response)
    (events : List SocketEvent) (e : SocketEvent) :
    processEvents parse (events ++ [e])
      = sendStep parse (processEvents parse events) e := by
  simp [processEvents, List.foldl_append]

/-- C2 (amended): per exchange at most one of the four resolution paths
wins, and once resolved nothing changes the outcome, cleanup count or
resolution site; cleanup runs at most once, exactly once when the data,
error or timeout path won, but never when the close-with-buffered-data
path won, and never while unresolved. -/
theorem transport_single_resolution (parse : String → Option Response)
    (events : List SocketEvent) (e : SocketEvent) :
    ((processEvents parse events).resolved
      = ((processEvents parse events).outcome.isSome))
    ∧ ((processEvents parse events).resolved = true →
        (processEvents parse (events ++ [e])).outcome
          = (processEvents parse events).outcome
        ∧ (processEvents parse (events ++ [e])).cleanups
          = (processEvents parse events).cleanups
        ∧ (processEvents parse (events ++ [e])).resolvedVia
          = (processEvents parse events).resolvedVia)
    ∧ (processEvents parse events).cleanups ≤ 1
    ∧ ((processEvents parse events).resolvedVia = some ResolvePath.closePath →
        (processEvents parse events).cleanups = 0)
    ∧ (((processEvents parse events).resolvedVia = some ResolvePath.dataPath
        ∨ (processEvents parse events).resolvedVia = some ResolvePath.errorPath
        ∨ (processEvents parse events).resolvedVia = some ResolvePath.timeoutPath) →
        (processEvents parse events).cleanups = 1)
    ∧ ((processEvents parse events).resolvedVia = none →
        (processEvents parse events).cleanups = 0) := by
  have hg := processEvents_good parse events
  unfold GoodSendState at hg
  obtain ⟨h1, h2, h3, h4, h5, h6⟩ := hg
  refine ⟨h1, ?_, ?_, ?_, ?_, ?_⟩
  · intro hres
    have hf := sendStep_frozen parse (processEvents parse events) e hres
    rw [processEvents_append_one]
    exact ⟨hf.1, hf.2.1, hf.2.2.1⟩
  · rw [h4]; split <;> simp
  · intro hc; rw [h4, if_pos (h5 hc)]
  · intro hc; rw [h4, if_neg ?_]; simp [h6 hc]
  · intro hn
    have hres : (processEvents parse events).resolved = false := by
      rw [← h2, hn]; rfl
    have hl : (processEvents parse events).listenersActive = true := by
      by_contra hfl
      rw [Bool.not_eq_true] at hfl
      rw [h3 hfl] at hres
      exact Bool.true_eq_false.mp hres
    rw [h4, if_pos hl]

/-- Witness for C2: on a run resolved by the timeout path, a subsequent
close event changes neither the outcome nor the cleanup count, and
cleanup ran exactly once. -/
theorem transport_single_resolution_witness :
    (processEvents parseNothing [SocketEvent.timeout]).resolved = true
    ∧ (processEvents parseNothing ([SocketEvent.timeout] ++ [SocketEvent.close])).outcome
        = (processEvents parseNothing [SocketEvent.timeout]).outcome
    ∧ (processEvents parseNothing [SocketEvent.timeout]).cleanups = 1 :=
  ⟨by decide,
   ((transport_single_resolution parseNothing [SocketEvent.timeout]
        SocketEvent.close).2.1 (by decide)).1,
   (transport_single_resolution parseNothing [SocketEvent.timeout]
        SocketEvent.close).2.2.2.2.1 (Or.inr (Or.inr (by decide)))⟩

/-- Counterexample for C2 as stated: when the connection closes with
buffered data and the buffer parses, the exchange resolves through the
close path, yet cleanup never runs, so listeners are not released on this
resolution path. -/
theorem transport_close_leak_counterexample :
    (processEvents demoParse [SocketEvent.data "x", SocketEvent.close]).resolvedVia
      = some ResolvePath.closePath
    ∧ (processEvents demoParse [SocketEvent.data "x", SocketEvent.close]).outcome
      = some (Except.ok demoResponse)
    ∧ (processEvents demoParse [SocketEvent.data "x", SocketEvent.close]).cleanups
      = 0
    ∧ (processEvents demoParse [SocketEvent.data "x", SocketEvent.close]).listenersActive
      = true := by
  decide

/-- C3 (amended): when the connection closes before resolution with a
nonempty trimmed buffer, the exchange resolves with the parsed buffer
when the parse succeeds and fails with the connection-closed error when
it fails; but when nothing (beyond whitespace) was buffered the close
handler does nothing at all, and the exchange only fails later when the
timer fires, with the timeout error. -/
theorem transport_close_handler (parse : String → Option Response)
    (events : List SocketEvent) :
    (processEvents parse events).resolved = false →
    ((jsTrim (processEvents parse events).buffer ≠ "" →
        (∀ r, parse (jsTrim (processEvents parse events).buffer) = some r →
          (processEvents parse (events ++ [SocketEvent.close])).outcome
            = some (Except.ok r))
        ∧ (parse (jsTrim (processEvents parse events).buffer) = none →
          (processEvents parse (events ++ [SocketEvent.close])).outcome
            = some (Except.error "Connection closed")))
    ∧ (jsTrim (processEvents parse events).buffer = "" →
        processEvents parse (events ++ [SocketEvent.close])
          = processEvents parse events
        ∧ (processEvents parse
            (events ++ [SocketEvent.close, SocketEvent.timeout])).outcome
          = some (Except.error "Timeout"))) := by
  intro hres
  have hg := processEvents_good parse events
  unfold GoodSendState at hg
  obtain ⟨h1, h2, h3, h4, h5, h6⟩ := hg
  have hl : (processEvents parse events).listenersActive = true := by
    by_contra hfl
    rw [Bool.not_eq_true] at hfl
    rw [h3 hfl] at hres
    exact Bool.true_eq_false.mp hres
  constructor
  · intro hbuf
    constructor
    · intro r hr
      rw [processEvents_append_one]
      simp [sendStep, hl, hres, hbuf, hr]
    · intro hr
      rw [processEvents_append_one]
      simp [sendStep, hl, hres, hbuf, hr]
  · intro hbuf
    have hclose : processEvents parse (events ++ [SocketEvent.close])
        = processEvents parse events := by
      rw [processEvents_append_one]
      simp [sendStep, hl, hres, hbuf]
    refine ⟨hclose, ?_⟩
    have hsplit : events ++ [SocketEvent.close, SocketEvent.timeout]
        = (events ++ [SocketEvent.close]) ++ [SocketEvent.timeout] := by
      simp
    rw [hsplit, processEvents_append_one, hclose]
    simp [sendStep, hres]

/-- Witness for C3: from the initial state, whose buffer is empty, a close
event leaves the state untouched and a following timer firing fails the
exchange with the timeout error. -/
theorem transport_close_handler_witness :
    processEvents parseNothing [SocketEvent.close] = processEvents parseNothing []
    ∧ (processEvents parseNothing [SocketEvent.close, SocketEvent.timeout]).outcome
      = some (Except.error "Timeout") :=
  (transport_close_handler parseNothing [] (by decide)).2 (by decide)

/-- Counterexample for C3 as stated: when the connection closes with
nothing buffered, the exchange does not fail with a connection-closed
error; it stays unresolved until the timer fires and then fails with the
timeout error. -/
theorem transport_close_empty_counterexample :
    (processEvents parseNothing [SocketEvent.close]).outcome = none
    ∧ (processEvents parseNothing [SocketEvent.close, SocketEvent.timeout]).outcome
      = some (Except.error "Timeout")
    ∧ (processEvents parseNothing [SocketEvent.close, SocketEvent.timeout]).outcome
      ≠ some (Except.error "Connection closed") := by
  decide

/-- C5 (amended): for open, goto and navigate with a URL argument, the
Request has action navigate, and the url field is the argument unchanged
when it starts with the literal text http, and the argument prefixed with
the secure scheme otherwise; the test is a prefix test on http, not a
check for the presence of a scheme. -/
theorem navigate_url_prefixing (id u : String) (rest : List String) :
    parseCommand id ("open" :: u :: rest)
      = some { id := id, action := "navigate",
               url := some (if startsWithHttp u.toList then u else "https://" ++ u) }
    ∧ parseCommand id ("goto" :: u :: rest)
      = some { id := id, action := "navigate",
               url := some (if startsWithHttp u.toList then u else "https://" ++ u) }
    ∧ parseCommand id ("navigate" :: u :: rest)
      = some { id := id, action := "navigate",
               url := some (if startsWithHttp u.toList then u else "https://" ++ u) } := by
  refine ⟨?_, ?_, ?_⟩ <;> simp [parseCommand]

/-- Counterexample for C5 as stated: httpbin.org is a bare host without a
scheme, yet the encoder leaves it unchanged instead of prefixing the
secure scheme, because the host happens to start with the text http. -/
theorem navigate_bare_host_counterexample :
    specHasScheme "httpbin.org" = false
    ∧ parseCommand "x" ["open", "httpbin.org"]
      = some { id := "x", action := "navigate", url := some "httpbin.org" }
    ∧ ("httpbin.org" : String) ≠ "https://httpbin.org" := by
  decide

/-- A decimal digit character is not a JavaScript whitespace character. -/
lemma digit_not_space (c : Char) (h : c.isDigit = true) : jsSpaceChar c = false := by
  cases hc : jsSpaceChar c
  · rfl
  · exfalso
    simp only [jsSpaceChar, Bool.or_eq_true, beq_iff_eq] at hc
    casesm* _ ∨ _ <;> subst_vars <;> exact absurd h (by decide)

/-- Taking while a predicate holds of every element returns the whole
list. -/
lemma takeWhile_all_eq {p : Char → Bool} :
    ∀ l : List Char, (∀ c ∈ l, p c = true) → l.takeWhile p = l := by
  intro l
  induction l with
  | nil => intro _; rfl
  | cons c cs ih =>
    intro h
    simp [List.takeWhile_cons, h c (by simp),
      ih (fun d hd => h d (by simp [hd]))]

/-- On a nonempty all-digit string, parseInt returns the decimal value of
the digit list. -/
lemma parseIntJS_digits (s : String) (h : matchesDigits s = true) :
    parseIntJS s = some ((digitsVal s.toList : Nat) : Int) := by
  have hsplit := h
  simp only [matchesDigits, Bool.and_eq_true, Bool.not_eq_true',
    List.all_eq_true, decide_eq_true_eq] at hsplit
  obtain ⟨hemp, hall⟩ := hsplit
  have hne : s.toList ≠ [] := by
    intro hnil
    have hs : s = "" := String.ext hnil
    rw [hs] at hemp
    exact absurd hemp (by decide)
  cases hsl : s.toList with
  | nil => exact absurd hsl hne
  | cons c cs =>
    have hcd : c.isDigit = true := hall c (by rw [hsl]; simp)
    have hcall : ∀ d ∈ c :: cs, d.isDigit = true := fun d hd =>
      hall d (by rw [hsl]; exact hd)
    have hnsp : jsSpaceChar c = false := digit_not_space c hcd
    have hminus : c ≠ '-' := by
      intro hc; subst hc; exact absurd hcd (by decide)
    have hplus : c ≠ '+' := by
      intro hc; subst hc; exact absurd hcd (by decide)
    simp only [parseIntJS, hsl]
    rw [List.dropWhile_cons_of_neg (by simp [hnsp])]
    simp [List.head?_cons, hminus, hplus, takeWhile_all_eq (c :: cs) hcall]

/-- C6: encoding wait with an argument string yields a Request with a
numeric timeout field holding the parsed integer exactly when the
argument is a nonempty all-digit string, and a Request whose selector
field is the argument otherwise; the split depends on nothing but that
digit test. -/
theorem wait_disambiguation (id s : String) (rest : List String) :
    (parseCommand id ("wait" :: s :: rest)
        = some { id := id, action := "wait", timeout := parseIntJS s }
      ↔ matchesDigits s = true)
    ∧ (parseCommand id ("wait" :: s :: rest)
        = some { id := id, action := "wait", selector := some s }
      ↔ matchesDigits s = false)
    ∧ (matchesDigits s = true →
        parseIntJS s = some ((digitsVal s.toList : Nat) : Int)) := by
  have hT : matchesDigits s = true →
      parseCommand id ("wait" :: s :: rest)
        = some { id := id, action := "wait", timeout := parseIntJS s } := by
    intro h
    simp [parseCommand, jsStr, h]
  have hF : matchesDigits s = false →
      parseCommand id ("wait" :: s :: rest)
        = some { id := id, action := "wait", selector := some s } := by
    intro h
    simp [parseCommand, jsStr, h]
  refine ⟨⟨fun heq => ?_, hT⟩, ⟨fun heq => ?_, hF⟩, parseIntJS_digits s⟩
  · by_contra hnd
    rw [Bool.not_eq_true] at hnd
    rw [hF hnd] at heq
    simp [Request.mk.injEq] at heq
  · by_contra hnd
    rw [Bool.not_eq_false] at hnd
    rw [hT hnd] at heq
    simp [Request.mk.injEq] at heq

/-- Witness for C6: the all-digit argument 500 encodes to a numeric
timeout field and the selector argument encodes to a selector field. -/
theorem wait_disambiguation_witness :
    parseCommand "w" ["wait", "500"]
      = some { id := "w", action := "wait", timeout := parseIntJS "500" }
    ∧ parseCommand "w" ["wait", "#sel"]
      = some { id := "w", action := "wait", selector := some "#sel" } :=
  ⟨(wait_disambiguation "w" "500" []).1.mpr (by decide),
   (wait_disambiguation "w" "#sel" []).2.1.mpr (by decide)⟩

/-- Splitting a batch argument list splits the encoded commands, with the
per-call id index advancing over every argument, encoded or not. -/
lemma parseBatchGo_append (ids : Nat → String) :
    ∀ (xs : List String) (i : Nat) (ys : List String),
      parseBatchGo ids i (xs ++ ys)
        = parseBatchGo ids i xs ++ parseBatchGo ids (i + xs.length) ys := by
  intro xs
  induction xs with
  | nil => intro i ys; simp [parseBatchGo]
  | cons a as ih =>
    intro i ys
    have hlen : i + (a :: as).length = (i + 1) + as.length := by
      simp [List.length_cons]; omega
    rw [List.cons_append]
    cases hpc : parseCommand (ids i) (cleanTokens a) with
    | none => simp only [parseBatchGo, hpc, hlen, ih]
    | some cmd => simp only [parseBatchGo, hpc, hlen, ih, List.cons_append]

/-- C7: the encoder returns none on an empty token list, on any first
token outside the supported verb table, and on get followed by anything
other than text, url or title; and in a batch every command string that
encodes to none is silently dropped while the remaining strings continue
to be tokenized and encoded in their original order. -/
theorem encode_unknown_and_batch_drop :
    (∀ id : String, parseCommand id [] = none)
    ∧ (∀ (id c : String) (rest : List String), c ∉ supportedVerbs →
        parseCommand id (c :: rest) = none)
    ∧ (∀ (id : String) (rest : List String),
        rest[0]? ≠ some "text" → rest[0]? ≠ some "url" → rest[0]? ≠ some "title" →
        parseCommand id ("get" :: rest) = none)
    ∧ (∀ (ids : Nat → String) (xs : List String) (y : String) (ys : List String),
        parseCommand (ids xs.length) (cleanTokens y) = none →
        parseBatchCommands ids (xs ++ y :: ys)
          = parseBatchCommands ids xs ++ parseBatchGo ids (xs.length + 1) ys) := by
  refine ⟨?_, ?_, ?_, ?_⟩
  · intro id; simp [parseCommand]
  · intro id c rest h
    simp only [supportedVerbs, List.mem_cons, List.not_mem_nil, or_false] at h
    push_neg at h
    obtain ⟨h1, h2, h3, h4, h5, h6, h7, h8, h9, h10, h11, h12, h13, h14, h15,
      h16, h17, h18⟩ := h
    simp [parseCommand, h1, h2, h3, h4, h5, h6, h7, h8, h9, h10, h11, h12,
      h13, h14, h15, h16, h17, h18]
  · intro id rest h1 h2 h3
    simp [parseCommand, h1, h2, h3]
  · intro ids xs y ys h
    unfold parseBatchCommands
    rw [parseBatchGo_append ids xs 0 (y :: ys)]
    simp only [parseBatchGo, Nat.zero_add, h]

/-- Witness for C7: the verb frobnicate encodes to none, and in a
concrete batch the unencodable middle string is dropped while the
surrounding commands are still encoded in order. -/
theorem encode_unknown_and_batch_drop_witness :
    parseCommand "w" ["frobnicate"] = none
    ∧ parseBatchCommands (fun _ => "w")
        ["open example.com", "frobnicate this", "get title"]
      = parseBatchCommands (fun _ => "w") ["open example.com"]
        ++ parseBatchGo (fun _ => "w") 2 ["get title"] :=
  ⟨encode_unknown_and_batch_drop.2.1 "w" "frobnicate" [] (by decide),
   encode_unknown_and_batch_drop.2.2.2 (fun _ => "w") ["open example.com"]
     "frobnicate this" ["get title"] (by decide)⟩

/-- The snapshot option loop never changes the id or the action of the
request it decorates. -/
lemma snapshotLoop_fields (args : List String) (o : Request) :
    (snapshotLoop args o).id = o.id ∧ (snapshotLoop args o).action = o.action := by
  induction args, o using snapshotLoop.induct with
  | case1 o => exact ⟨rfl, rfl⟩
  | case2 a as o h ih =>
    unfold snapshotLoop; rw [if_pos h]; exact ih
  | case3 a as o h1 h2 ih =>
    unfold snapshotLoop; rw [if_neg h1, if_pos h2]; exact ih
  | case4 a o h1 h2 h3 =>
    unfold snapshotLoop; rw [if_neg h1, if_neg h2, if_pos h3]; exact ⟨rfl, rfl⟩
  | case5 a o h1 h2 h3 b bs ih =>
    unfold snapshotLoop; rw [if_neg h1, if_neg h2, if_pos h3]; exact ih
  | case6 a o h1 h2 h3 h4 =>
    unfold snapshotLoop; rw [if_neg h1, if_neg h2, if_neg h3, if_pos h4]
    exact ⟨rfl, rfl⟩
  | case7 a o h1 h2 h3 h4 b bs ih =>
    unfold snapshotLoop; rw [if_neg h1, if_neg h2, if_neg h3, if_pos h4]; exact ih
  | case8 a as o h1 h2 h3 h4 ih =>
    unfold snapshotLoop; rw [if_neg h1, if_neg h2, if_neg h3, if_neg h4]; exact ih

/-- C8 (amended): for every supported verb with well-formed arguments the
encoded Request carries the id drawn from the random source and the
action of the verb's documented mapping; the id is the slice from index 2
to 10 of the base-36 string of the draw, which is nonempty for every
nonzero draw, while the draw 0 yields the empty id. -/
theorem encode_action_mapping_and_id (id ds : String) (rest : List String) :
    ((parseCommand id ("open" :: rest)).map (fun r => (r.id, r.action))
      = some (id, "navigate"))
    ∧ ((parseCommand id ("goto" :: rest)).map (fun r => (r.id, r.action))
      = some (id, "navigate"))
    ∧ ((parseCommand id ("navigate" :: rest)).map (fun r => (r.id, r.action))
      = some (id, "navigate"))
    ∧ ((parseCommand id ("click" :: rest)).map (fun r => (r.id, r.action))
      = some (id, "click"))
    ∧ ((parseCommand id ("fill" :: rest)).map (fun r => (r.id, r.action))
      = some (id, "fill"))
    ∧ ((parseCommand id ("type" :: rest)).map (fun r => (r.id, r.action))
      = some (id, "type"))
    ∧ ((parseCommand id ("hover" :: rest)).map (fun r => (r.id, r.action))
      = some (id, "hover"))
    ∧ ((parseCommand id ("snapshot" :: rest)).map (fun r => (r.id, r.action))
      = some (id, "snapshot"))
    ∧ ((parseCommand id ("screenshot" :: rest)).map (fun r => (r.id, r.action))
      = some (id, "screenshot"))
    ∧ ((parseCommand id ("close" :: rest)).map (fun r => (r.id, r.action))
      = some (id, "close"))
    ∧ ((parseCommand id ("quit" :: rest)).map (fun r => (r.id, r.action))
      = some (id, "close"))
    ∧ ((parseCommand id ("get" :: "text" :: rest)).map (fun r => (r.id, r.action))
      = some (id, "gettext"))
    ∧ ((parseCommand id ("get" :: "url" :: rest)).map (fun r => (r.id, r.action))
      = some (id, "url"))
    ∧ ((parseCommand id ("get" :: "title" :: rest)).map (fun r => (r.id, r.action))
      = some (id, "title"))
    ∧ ((parseCommand id ("press" :: rest)).map (fun r => (r.id, r.action))
      = some (id, "press"))
    ∧ ((parseCommand id ("wait" :: rest)).map (fun r => (r.id, r.action))
      = some (id, "wait"))
    ∧ ((parseCommand id ("back" :: rest)).map (fun r => (r.id, r.action))
      = some (id, "back"))
    ∧ ((parseCommand id ("forward" :: rest)).map (fun r => (r.id, r.action))
      = some (id, "forward"))
    ∧ ((parseCommand id ("reload" :: rest)).map (fun r => (r.id, r.action))
      = some (id, "reload"))
    ∧ ((parseCommand id ("eval" :: rest)).map (fun r => (r.id, r.action))
      = some (id, "evaluate"))
    ∧ (ds ≠ "" → randomIdOfBase36 ("0." ++ ds) ≠ "") := by
  refine ⟨?_, ?_, ?_, ?_, ?_, ?_, ?_, ?_, ?_, ?_, ?_, ?_, ?_, ?_, ?_, ?_, ?_,
    ?_, ?_, ?_, ?_⟩
  · simp [parseCommand]
  · simp [parseCommand]
  · simp [parseCommand]
  · simp [parseCommand]
  · simp [parseCommand]
  · simp [parseCommand]
  · simp [parseCommand]
  · have hf := snapshotLoop_fields rest { id := id, action := "snapshot" }
    simp [parseCommand, Prod.ext_iff]
    exact ⟨hf.1, hf.2⟩
  · simp [parseCommand]
  · simp [parseCommand]
  · simp [parseCommand]
  · simp [parseCommand]
  · simp [parseCommand]
  · simp [parseCommand]
  · simp [parseCommand]
  · cases hw : matchesDigits (jsStr rest[0]?) <;> simp [parseCommand, hw]
  · simp [parseCommand]
  · simp [parseCommand]
  · simp [parseCommand]
  · simp [parseCommand]
  · intro hds heq
    have hlist : ((("0." ++ ds).toList.drop 2).take 8) = [] := by
      have hcongr := congrArg String.toList heq
      simpa [randomIdOfBase36, jsSlice, String.toList] using hcongr
    have htl : ("0." ++ ds).toList = '0' :: '.' :: ds.toList := by
      simp [String.toList, String.data_append]
    rw [htl] at hlist
    simp only [List.drop_succ_cons, List.drop_zero, List.take_eq_nil_iff] at hlist
    rcases hlist with h8 | hnil
    · exact absurd h8 (by decide)
    · exact hds (String.ext hnil)

/-- Witness for C8: a concrete nonzero draw whose base-36 string is
0.k yields a nonempty id. -/
theorem encode_action_mapping_witness :
    randomIdOfBase36 ("0." ++ "k") ≠ "" :=
  (encode_action_mapping_and_id "r" "k" []).2.2.2.2.2.2.2.2.2.2.2.2.2.2.2.2.2.2.2.2
    (by decide)

/-- Counterexample for C8 as stated: the random draw 0 prints in base 36
as the single character 0, whose slice from index 2 to 10 is empty, so
the generated id is the empty string and the encoded Request carries an
empty id. -/
theorem encode_zero_draw_empty_id_counterexample :
    randomIdOfBase36 "0" = ""
    ∧ parseCommand (randomIdOfBase36 "0") ["open", "x"]
      = some { id := "", action := "navigate", url := some "https://x" } := by
  decide

/-- C9: the liveness check reports not running when the marker file is
absent, when its trimmed content parses to NaN, and when the recorded
process does not exist, in every world and so regardless of whether the
socket path still exists; and ensureDaemon returns immediately without
spawning exactly when the marker exists, its content parses to a pid
whose process is alive, and the socket path exists. -/
theorem daemon_liveness (w : DaemonWorld) (pid : Int) :
    (w.pidFileExists = false → isDaemonRunning w = false)
    ∧ (parseIntJS (jsTrim w.pidFileContent) = none → isDaemonRunning w = false)
    ∧ (parseIntJS (jsTrim w.pidFileContent) = some pid →
        w.processAlive pid = false → isDaemonRunning w = false)
    ∧ (ensureDaemonReturnsImmediately w = true ↔
        (w.pidFileExists = true
         ∧ (∃ p, parseIntJS (jsTrim w.pidFileContent) = some p
             ∧ w.processAlive p = true)
         ∧ w.socketExists = true)) := by
  refine ⟨?_, ?_, ?_, ?_⟩
  · intro h; simp [isDaemonRunning, h]
  · intro h; simp [isDaemonRunning, h, ite_self]
  · intro hp ha; simp [isDaemonRunning, hp, ha, ite_self]
  · unfold ensureDaemonReturnsImmediately isDaemonRunning
    constructor
    · intro h
      rw [Bool.and_eq_true] at h
      obtain ⟨hrun, hsock⟩ := h
      cases hp : w.pidFileExists with
      | false => rw [hp] at hrun; simp at hrun
      | true =>
        rw [hp] at hrun
        cases hpi : parseIntJS (jsTrim w.pidFileContent) with
        | none => rw [hpi] at hrun; simp at hrun
        | some p =>
          rw [hpi] at hrun
          exact ⟨rfl, ⟨p, rfl, hrun⟩, hsock⟩
    · rintro ⟨hp, ⟨p, hpi, ha⟩, hsock⟩
      rw [Bool.and_eq_true]
      exact ⟨by simp [hp, hpi, ha], hsock⟩

/-- Witness for C9: a world whose marker names a dead process is reported
not running although its socket exists, and a world with a live recorded
process and an existing socket makes ensureDaemon return immediately. -/
theorem daemon_liveness_witness :
    isDaemonRunning demoWorldDead = false
    ∧ ensureDaemonReturnsImmediately demoWorldLive = true :=
  ⟨(daemon_liveness demoWorldDead 7).2.2.1 (by decide) rfl,
   (daemon_liveness demoWorldLive 0).2.2.2.mpr ⟨rfl, ⟨123, by decide, by decide⟩, rfl⟩⟩

/-- C10: the encoder is total on missing arguments: every argument-taking
verb except get still returns a Request when invoked with no further
tokens, the affected fields staying unset, and the navigation verbs
produce the literal url https://undefined through the undefined coercion
of the template literal. -/
theorem encode_missing_args_total (id : String) :
    parseCommand id ["open"]
      = some { id := id, action := "navigate", url := some "https://undefined" }
    ∧ parseCommand id ["goto"]
      = some { id := id, action := "navigate", url := some "https://undefined" }
    ∧ parseCommand id ["navigate"]
      = some { id := id, action := "navigate", url := some "https://undefined" }
    ∧ parseCommand id ["click"] = some { id := id, action := "click" }
    ∧ parseCommand id ["fill"]
      = some { id := id, action := "fill", value := some "" }
    ∧ parseCommand id ["type"]
      = some { id := id, action := "type", text := some "" }
    ∧ parseCommand id ["hover"] = some { id := id, action := "hover" }
    ∧ parseCommand id ["snapshot"] = some { id := id, action := "snapshot" }
    ∧ parseCommand id ["screenshot"] = some { id := id, action := "screenshot" }
    ∧ parseCommand id ["press"] = some { id := id, action := "press" }
    ∧ parseCommand id ["wait"] = some { id := id, action := "wait" }
    ∧ parseCommand id ["eval"]
      = some { id := id, action := "evaluate", script := some "" } := by
  refine ⟨?_, ?_, ?_, ?_, ?_, ?_, ?_, ?_, ?_, ?_, ?_, ?_⟩ <;> rfl

end AgentBrowser
